import Mathlib

/-!
Verification of the pyrxiv fetch/extract/clean pipeline.

Shallow embedding of `src/pyrxiv/extractor.py`, `src/pyrxiv/fetcher.py`,
`src/pyrxiv/downloader.py` and `src/pyrxiv/datamodel.py`.  Python strings
are modelled as Lean `String` (with `List Char` for code-point level
operations, matching Python string indexing); Python `None` is modelled by
`Option`; the filesystem and the network are passed explicitly.

The character scanners that translate `re.sub` calls take an explicit fuel
argument so that they are structurally recursive (hence kernel-computable);
every wrapper passes `length + 1` fuel, and each recursive call strictly
shortens the list while spending exactly one unit, so the fuel never runs
out on the wrapped calls.
-/

namespace Pyrxiv

/-! ## Character and string utilities -/

/-- Whitespace as Python `str.strip` and the `re` class `\s` see it:
ASCII whitespace, the C1 control separators, and Unicode space separators. -/
def pyIsSpace (c : Char) : Bool :=
  c = ' ' || c = '\t' || c = '\n' || c = '\x0b' || c = '\x0c' || c = '\r' ||
  c = '\x1c' || c = '\x1d' || c = '\x1e' || c = '\x1f' || c = '\x85' || c = '\xa0' ||
  c = '\u1680' || ( '\u2000' ≤ c && c ≤ '\u200a') || c = '\u2028' || c = '\u2029' ||
  c = '\u202f' || c = '\u205f' || c = '\u3000'

/-- Substring test on character lists (`needle in hay` for Python `str`). -/
def isInfixOfCl (needle : List Char) : List Char → Bool
  | [] => needle.isEmpty
  | c :: rest => needle.isPrefixOf (c :: rest) || isInfixOfCl needle rest

/-- Python substring test `needle in hay`. -/
def strContains (hay needle : String) : Bool :=
  isInfixOfCl needle.data hay.data

/-- Python `hay.endswith(suffix)`. -/
def strEndsWith (hay suffix : String) : Bool :=
  suffix.data.isSuffixOf hay.data

/-! ## TextExtractor.clean_text (src/pyrxiv/extractor.py lines 109-144)

Each `re.sub` call is translated to a left-to-right scanner with the same
leftmost-match semantics as the Python `re` module on these patterns. -/

/-- Stage (a), `re.sub(r"-\s*\n\s*", "", text)`: a hyphen followed by a
whitespace run containing a newline is removed together with that whole run
(the two greedy `\s*` groups and the mandatory `\n` jointly consume the
maximal whitespace run exactly when it contains a newline). -/
def fixHyphensGo : Nat → List Char → List Char
  | 0, _ => []
  | _ + 1, [] => []
  | fuel + 1, c :: rest =>
    if c = '-' && (rest.takeWhile pyIsSpace).contains '\n' then
      fixHyphensGo fuel (rest.dropWhile pyIsSpace)
    else c :: fixHyphensGo fuel rest

def fixHyphens (cs : List Char) : List Char := fixHyphensGo (cs.length + 1) cs

/-- Stage (b), `re.sub(r"\n{2,}", "\n\n", text)`: a run of two or more
newlines becomes exactly two newlines. -/
def collapseNLGo : Nat → List Char → List Char
  | 0, _ => []
  | _ + 1, [] => []
  | fuel + 1, c :: rest =>
    if c = '\n' && !(rest.takeWhile (fun d => d = '\n')).isEmpty then
      '\n' :: '\n' :: collapseNLGo fuel (rest.dropWhile (fun d => d = '\n'))
    else c :: collapseNLGo fuel rest

def collapseNL (cs : List Char) : List Char := collapseNLGo (cs.length + 1) cs

/-- Consume exactly `n` decimal digits, returning the remainder. -/
def digitsConsume : Nat → List Char → Option (List Char)
  | 0, l => some l
  | _ + 1, [] => none
  | n + 1, c :: rest => if c.isDigit then digitsConsume n rest else none

/-- Drop one leading digit if present (the greedy fifth digit of
`\d{4,5}`). -/
def dropOneDigit : List Char → List Char
  | [] => []
  | d :: rest => if d.isDigit then rest else d :: rest

/-- The optional greedy `(v\d+)?` group of the arXiv-identifier pattern:
consumed only when a `v` followed by at least one digit is present. -/
def optV : List Char → List Char
  | [] => []
  | a :: rest =>
    if a = 'v' then
      match rest with
      | [] => a :: rest
      | d :: rest' => if d.isDigit then rest'.dropWhile Char.isDigit else a :: rest
    else a :: rest

/-- Match `arXiv:\d{4}\.\d{4,5}(v\d+)?` at the head of the list, returning
the remainder after the (greedy) match. -/
def matchArxivAt (cs : List Char) : Option (List Char) :=
  if ("arXiv:".data).isPrefixOf cs then
    match digitsConsume 4 (cs.drop 6) with
    | none => none
    | some r1 =>
      match r1 with
      | [] => none
      | a :: r2 =>
        if a = '.' then
          match digitsConsume 4 r2 with
          | none => none
          | some r3 => some (optV (dropOneDigit r3))
        else none
  else none

/-- Stage (c), `re.sub(r"arXiv:\d{4}\.\d{4,5}(v\d+)?", "", text)`. -/
def stripArxivGo : Nat → List Char → List Char
  | 0, _ => []
  | _ + 1, [] => []
  | fuel + 1, c :: rest =>
    match matchArxivAt (c :: rest) with
    | some r => stripArxivGo fuel r
    | none => c :: stripArxivGo fuel rest

def stripArxiv (cs : List Char) : List Char := stripArxivGo (cs.length + 1) cs

/-- Stage (d), `re.sub(r"[ \t]+", " ", text)`: collapse space/tab runs. -/
def collapseSpacesGo : Nat → List Char → List Char
  | 0, _ => []
  | _ + 1, [] => []
  | fuel + 1, c :: rest =>
    if c = ' ' || c = '\t' then
      ' ' :: collapseSpacesGo fuel (rest.dropWhile (fun d => d = ' ' || d = '\t'))
    else c :: collapseSpacesGo fuel rest

def collapseSpaces (cs : List Char) : List Char := collapseSpacesGo (cs.length + 1) cs

/-- Stage (e), `re.sub(r"\n[ \t]+", "\n", text)`: drop indentation after a
newline. -/
def removeIndentGo : Nat → List Char → List Char
  | 0, _ => []
  | _ + 1, [] => []
  | fuel + 1, c :: rest =>
    if c = '\n' && !(rest.takeWhile (fun d => d = ' ' || d = '\t')).isEmpty then
      '\n' :: removeIndentGo fuel (rest.dropWhile (fun d => d = ' ' || d = '\t'))
    else c :: removeIndentGo fuel rest

def removeIndent (cs : List Char) : List Char := removeIndentGo (cs.length + 1) cs

/-- Stage (f), `re.sub(r"\n+", " ", text)`: a newline run becomes one space. -/
def nlToSpaceGo : Nat → List Char → List Char
  | 0, _ => []
  | _ + 1, [] => []
  | fuel + 1, c :: rest =>
    if c = '\n' then ' ' :: nlToSpaceGo fuel (rest.dropWhile (fun d => d = '\n'))
    else c :: nlToSpaceGo fuel rest

def nlToSpace (cs : List Char) : List Char := nlToSpaceGo (cs.length + 1) cs

/-- Right strip: drop trailing `pyIsSpace` characters. -/
def pyStripRight : List Char → List Char
  | [] => []
  | c :: rest =>
    let r := pyStripRight rest
    if r.isEmpty && pyIsSpace c then [] else c :: r

/-- Python `str.strip()`: drop leading and trailing whitespace. -/
def pyStrip (cs : List Char) : List Char :=
  pyStripRight (cs.dropWhile pyIsSpace)

/-- `TextExtractor.clean_text` (src/pyrxiv/extractor.py lines 109-144):
empty input returns empty (after a logged warning, not modelled); otherwise
the seven regex stages run in source order, ending with `strip()`. -/
def clean_text (s : String) : String :=
  if s = "" then ""
  else
    String.mk (pyStrip (nlToSpace (removeIndent (collapseSpaces
      (stripArxiv (collapseNL (fixHyphens s.data)))))))

/-! ## TextExtractor.delete_references (src/pyrxiv/extractor.py lines 86-107)

The two patterns are
`pattern_start = (?:\nReferences\n|\nBibliography\n|\n\[1\] *[A-Z])` and
`pattern_end = (?:\nSupplemental Material[\:\n]*|\nSupplemental
Information[\:\n]*|\nAppendices[\:\n]*)`, both searched with
`re.IGNORECASE`.  Only the start position of a match is used, so the
trailing `[\:\n]*` of the end alternatives is irrelevant.  Case folding is
modelled on ASCII letters (the letters appearing in the patterns). -/

/-- Case-insensitive character comparison (ASCII folding). -/
def ciEq (a b : Char) : Bool := a.toLower = b.toLower

/-- Does the (lower-case ASCII) pattern literal occur at the head of the
text, case-insensitively? -/
def ciPrefixAt : List Char → List Char → Bool
  | [], _ => true
  | _ :: _, [] => false
  | p :: ps, c :: cs => ciEq p c && ciPrefixAt ps cs

/-- `[A-Z]` under `re.IGNORECASE`: any ASCII letter. -/
def isAsciiLetter (c : Char) : Bool :=
  ('a' ≤ c && c ≤ 'z') || ('A' ≤ c && c ≤ 'Z')

/-- The tail ` *[A-Z]` of the citation-start alternative: skip spaces, then
require a letter. -/
def spacesThenLetter : List Char → Bool
  | [] => false
  | c :: rest => if c = ' ' then spacesThenLetter rest else isAsciiLetter c

/-- The `\n\[1\] *[A-Z]` alternative matched at the head of the text. -/
def citeStartAt : List Char → Bool
  | '\n' :: '[' :: '1' :: ']' :: rest => spacesThenLetter rest
  | _ => false

/-- Does `pattern_start` match at the head of the text? -/
def startPatAt (cs : List Char) : Bool :=
  ciPrefixAt "\nreferences\n".data cs || ciPrefixAt "\nbibliography\n".data cs ||
    citeStartAt cs

/-- Does `pattern_end` match at the head of the text? -/
def endPatAt (cs : List Char) : Bool :=
  ciPrefixAt "\nsupplemental material".data cs ||
    ciPrefixAt "\nsupplemental information".data cs ||
    ciPrefixAt "\nappendices".data cs

/-- `re.search`: scan left to right, return the first position where the
pattern matches (the position `match.start()`). -/
def reSearch (p : List Char → Bool) : List Char → Option Nat
  | [] => if p [] then some 0 else none
  | c :: rest => if p (c :: rest) then some 0 else (reSearch p rest).map (· + 1)

/-- Declarative first-match position: the least index whose suffix matches,
found by scanning `0, 1, ..., length` in order. -/
def firstIdx (p : List Char → Bool) (cs : List Char) : Option Nat :=
  (List.range (cs.length + 1)).find? (fun i => p (cs.drop i))

/-- `TextExtractor.delete_references` (src/pyrxiv/extractor.py lines
86-107): search for the start pattern; if found, search for the end pattern
over the WHOLE text; if both found return `text[:start] + text[end:]`; if
only the start is found return `text[:start]`; otherwise return the text
unchanged. -/
def delete_references (s : String) : String :=
  match reSearch startPatAt s.data with
  | none => s
  | some start =>
    match reSearch endPatAt s.data with
    | some e => String.mk (s.data.take start ++ s.data.drop e)
    | none => String.mk (s.data.take start)

/-- Modelled from the spec sentence of claim C2: identical case analysis,
except that the end heading is the first occurrence located strictly AFTER
the start position. -/
def delete_references_spec (s : String) : String :=
  match firstIdx startPatAt s.data with
  | none => s
  | some start =>
    match (firstIdx endPatAt (s.data.drop (start + 1))).map (· + (start + 1)) with
    | some e => String.mk (s.data.take start ++ s.data.drop e)
    | none => String.mk (s.data.take start)

/-- The amended claim: as claim C2, but the end heading is the first
occurrence anywhere in the text, not necessarily after the start (so when
it precedes the start, the splice duplicates the span between them). -/
def delete_references_amended (s : String) : String :=
  match firstIdx startPatAt s.data with
  | none => s
  | some start =>
    match firstIdx endPatAt s.data with
    | some e => String.mk (s.data.take start ++ s.data.drop e)
    | none => String.mk (s.data.take start)

/-! ## TextExtractor.get_text (src/pyrxiv/extractor.py lines 34-84)

The Python function is annotated `-> str` but its two validation failure
branches execute `return []`, so its result type is modelled as a sum of a
string and a list.  The filesystem is a list of existing paths; a backend
is a function from (loader name, path) to the lazy page texts. -/

/-- Result of `get_text`: either a Python `str` or a Python `list`. -/
inductive PyStrOrList where
  | str (s : String)
  | list (l : List String)
deriving DecidableEq

/-- Python truthiness of a `get_text` result (`if not text:`). -/
def pyFalsy : PyStrOrList → Bool
  | .str s => s = ""
  | .list l => l.isEmpty

/-- Discriminator: is the result a Python `str` at all? -/
def isPyStr : PyStrOrList → Bool
  | .str _ => true
  | .list _ => false

/-- Python `str(x)` on an optional path (`str(None)` is the text `None`). -/
def pyStr : Option String → String
  | none => "None"
  | some s => s

/-- The keys of `self.available_loaders` (src/pyrxiv/extractor.py 29-32). -/
def availableLoaders : List String := ["pypdf", "pdfminer"]

/-- `TextExtractor._check_pdf_path`: stringify, reject empty, then require
the path to exist and to end in `.pdf`. -/
def check_pdf_path (fs : List String) (pdf_path : Option String) : Bool :=
  let p := pyStr pdf_path
  if p = "" then false
  else fs.contains p && strEndsWith p ".pdf"

/-- Concatenation of the page texts (`text += page.page_content`). -/
def joinPages (pages : List String) : String :=
  pages.foldl (fun a b => a ++ b) ""

/-- `TextExtractor.get_text`: invalid path returns the Python list `[]`;
unknown loader returns the Python list `[]`; otherwise the concatenated
page texts of the chosen backend. -/
def get_text (fs : List String) (extract : String → String → List String)
    (pdf_path : Option String) (loader : String) : PyStrOrList :=
  if !(check_pdf_path fs pdf_path) then .list []
  else if !(availableLoaders.contains loader) then .list []
  else .str (joinPages (extract loader (pyStr pdf_path)))

/-- A concrete backend used to evaluate `get_text` on failing inputs. -/
def extractC5 : String → String → List String := fun _ _ => ["page text"]

/-! ## Data model (src/pyrxiv/datamodel.py)

`Author` and `ArxivPaper` are pydantic models; the fields are modelled
structurally with the values `ArxivFetcher.fetch` constructs (pydantic
coercion and validation of datetime strings is not modelled; dates are kept
as the strings the feed supplies). -/

structure Author where
  name : Option String
  affiliation : Option String
  email : Option String := none
deriving DecidableEq, Repr

structure ArxivPaper where
  id : String
  url : String
  pdf_url : String
  updated : Option String := none
  published : Option String := none
  title : Option String
  summary : String
  authors : List Author
  comment : String
  n_pages : Option Nat := none
  n_figures : Option Nat := none
  categories : List (Option String)
  pdf_loader : Option String := none
  text : String := ""
deriving DecidableEq, Repr

/-! ## Feed entries (the `xmltodict` view of one `<entry>`)

`paper` in `ArxivFetcher.fetch` is a string-keyed dictionary; the fields
the code reads are modelled as optional values, and the elements that
`xmltodict` returns either as a single dictionary or as a list carry an
explicit single-or-list shape. -/

/-- A value that `xmltodict` may give as missing, as one dictionary, or as
a list of dictionaries. -/
inductive SingleOrList (α : Type) where
  | missing
  | single (a : α)
  | list (l : List α)
deriving DecidableEq, Repr

/-- An `<author>` element: `name` and `affiliation` sub-elements. -/
structure FeedAuthor where
  name : Option String
  affiliation : Option String
deriving DecidableEq, Repr

/-- A `<category>` element: the `term` attribute. -/
structure FeedCategory where
  term : Option String
deriving DecidableEq, Repr

/-- One feed entry as the code reads it: `title`, `id`, `summary`,
`author`, `category`, the `#text` of `arxiv:comment`, `updated`,
`published`. -/
structure Entry where
  title : Option String
  id : Option String
  summary : Option String
  author : SingleOrList FeedAuthor
  category : SingleOrList FeedCategory
  comment : Option String
  updated : Option String
  published : Option String
deriving DecidableEq, Repr

/-- `paper.get("author", [])` followed by the isinstance normalisation. -/
def authorsOf : SingleOrList FeedAuthor → List FeedAuthor
  | .missing => []
  | .single a => [a]
  | .list l => l

/-- Category extraction (src/pyrxiv/fetcher.py lines 154-161): a non-list
value contributes the singleton of its `term`; a list contributes the
`term` of each element; a missing element is the empty list, which is a
list. -/
def categoriesOf : SingleOrList FeedCategory → List (Option String)
  | .missing => []
  | .single c => [c.term]
  | .list l => l.map (fun c => c.term)

/-! ## `_get_pages_and_figures` (src/pyrxiv/fetcher.py lines 67-83)

`re.search(r"(\d+) *pages*, *(\d+) *figures*", comment)`: scan left to
right; at each position match a maximal digit run, optional spaces, the
literal `page`, greedy `s*`, a comma, optional spaces, a second maximal
digit run, optional spaces, the literal `figure` (the final greedy `s*`
constrains nothing). -/

/-- Read a maximal nonempty digit run as a number (Python `int`). -/
def readDigits : List Char → Option (Nat × List Char)
  | [] => none
  | c :: rest =>
    if c.isDigit then
      let run := (c :: rest).takeWhile Char.isDigit
      some (run.foldl (fun acc d => acc * 10 + (d.toNat - 48)) 0,
        (c :: rest).dropWhile Char.isDigit)
    else none

def skipSpacesCl (cs : List Char) : List Char := cs.dropWhile (fun d => d = ' ')

/-- Match the pages/figures pattern at the head of the list. -/
def matchPagesFiguresAt (cs : List Char) : Option (Nat × Nat) :=
  match readDigits cs with
  | none => none
  | some (np, r1) =>
    let r2 := skipSpacesCl r1
    if ("page".data).isPrefixOf r2 then
      match (r2.drop 4).dropWhile (fun d => d = 's') with
      | ',' :: r4 =>
        match readDigits (skipSpacesCl r4) with
        | none => none
        | some (nf, r6) =>
          if ("figure".data).isPrefixOf (skipSpacesCl r6) then some (np, nf)
          else none
      | _ => none
    else none

/-- Leftmost search for the pages/figures pattern. -/
def searchPagesFigures : List Char → Option (Nat × Nat)
  | [] => none
  | c :: rest =>
    match matchPagesFiguresAt (c :: rest) with
    | some x => some x
    | none => searchPagesFigures rest

/-- `_get_pages_and_figures`: the two captured numbers, or both unset. -/
def get_pages_and_figures (comment : String) : Option Nat × Option Nat :=
  match searchPagesFigures comment.data with
  | some (p, f) => (some p, some f)
  | none => (none, none)

/-! ## ArxivFetcher.fetch (src/pyrxiv/fetcher.py lines 55-203)

`new_papers` is a heterogeneous Python list: it normally accumulates
`ArxivPaper` objects, but the three per-entry rejection branches execute
`new_papers = papers`, replacing the whole accumulator with the raw page of
feed-entry dictionaries.  An element is therefore a paper or a raw entry.

The network is a function `feed : start_index → current_batch_size → page`
(the parsed `entry` list of the query response, already normalised to a
list).  The persisted ledger file is the list of its lines; the call reads
it once at the start and the returned `writes` component is the single
block of lines appended at the end (empty when nothing is written).  An
explicit fuel bounds the number of `while` iterations, `none` standing for
the non-termination that an infinite upstream would cause; the final
accumulator is returned alongside as an observer. -/

/-- An element of the `new_papers` list. -/
inductive Rec where
  | paper (p : ArxivPaper)
  | raw (e : Entry)
deriving DecidableEq, Repr

/-- `isinstance(p, ArxivPaper)`. -/
def recIsPaper : Rec → Bool
  | .paper _ => true
  | .raw _ => false

/-- The `id` attribute of an accumulated element, when it is a paper. -/
def recId : Rec → Option String
  | .paper p => some p.id
  | .raw _ => none

/-- `isinstance(p, ArxivPaper) and p.id is not None` (the ledger gate). -/
def recWellFormed (r : Rec) : Bool :=
  recIsPaper r && (recId r).isSome

/-- The identifiers of the papers in an accumulated list. -/
def paperIds (l : List Rec) : List String := l.filterMap recId

/-- First occurrence of a pattern in a character list. -/
def findSub (sep : List Char) : List Char → Option Nat
  | [] => if sep.isEmpty then some 0 else none
  | c :: rest => if sep.isPrefixOf (c :: rest) then some 0 else (findSub sep rest).map (· + 1)

/-- Python `str.split(sep)` for a nonempty separator (fuel as elsewhere). -/
def splitOnClGo (sep : List Char) : Nat → List Char → List (List Char)
  | 0, cs => [cs]
  | fuel + 1, cs =>
    match findSub sep cs with
    | none => [cs]
    | some i => cs.take i :: splitOnClGo sep fuel (cs.drop (i + sep.length))

def pySplit (s sep : String) : List String :=
  (splitOnClGo sep.data (s.data.length + 1) s.data).map String.mk

/-- Python `str.replace(pat, sub)` for a nonempty pattern: all
non-overlapping occurrences, left to right (fuel as elsewhere). -/
def replaceClGo (pat sub : List Char) : Nat → List Char → List Char
  | 0, cs => cs
  | _ + 1, [] => []
  | fuel + 1, c :: rest =>
    if pat.isPrefixOf (c :: rest) then
      sub ++ replaceClGo pat sub fuel ((c :: rest).drop pat.length)
    else c :: replaceClGo pat sub fuel rest

def pyReplace (s pat sub : String) : String :=
  String.mk (replaceClGo pat.data sub.data (s.data.length + 1) s.data)

/-- The arXiv identifier derived from the entry URL:
`url_id.split("/")[-1].replace(".pdf", "")`. -/
def arxivIdOf (url_id : String) : String :=
  pyReplace ((pySplit url_id "/").getLastD "") ".pdf" ""

/-- Build the `ArxivPaper` for an accepted entry (src/pyrxiv/fetcher.py
lines 141-183). -/
def buildPaper (e : Entry) (url_id summary : String) : ArxivPaper :=
  let comment := e.comment.getD ""
  let pf := get_pages_and_figures comment
  { id := arxivIdOf url_id
    url := url_id
    pdf_url := pyReplace url_id "abs" "pdf"
    updated := e.updated
    published := e.published
    title := e.title
    summary := summary
    authors := (authorsOf e.author).map
      (fun a => { name := a.name, affiliation := a.affiliation, email := none })
    comment := comment
    n_pages := pf.1
    n_figures := pf.2
    categories := categoriesOf e.category
    pdf_loader := none
    text := "" }

/-- The `for paper in papers:` body (src/pyrxiv/fetcher.py lines 115-189),
threading the `fetched_ids` set and the `new_papers` accumulator; `page` is
the raw `papers` list the rejection branches assign. -/
def processEntries (mr : Nat) (page : List Entry) :
    List Entry → List String → List Rec → List String × List Rec
  | [], ids, acc => (ids, acc)
  | e :: rest, ids, acc =>
    if strContains (e.title.getD "") "Error" then
      processEntries mr page rest ids (page.map Rec.raw)
    else
      match e.id with
      | none => processEntries mr page rest ids (page.map Rec.raw)
      | some url_id =>
        if url_id = "" || !(strContains url_id "arxiv.org") then
          processEntries mr page rest ids (page.map Rec.raw)
        else
          match e.summary with
          | none => processEntries mr page rest ids (page.map Rec.raw)
          | some summary =>
            if summary = "" then processEntries mr page rest ids (page.map Rec.raw)
            else
              let arxiv_id := arxivIdOf url_id
              if ids.contains arxiv_id then processEntries mr page rest ids acc
              else
                let acc' := acc ++ [Rec.paper (buildPaper e url_id summary)]
                let ids' := arxiv_id :: ids
                if mr ≤ acc'.length then (ids', acc')
                else processEntries mr page rest ids' acc'

/-- The end-of-call bookkeeping (src/pyrxiv/fetcher.py lines 193-203): the
block of identifiers appended to the ledger file, the returned list, and
the final accumulator. -/
def finalize (acc : List Rec) : List Rec × List String × List Rec :=
  ((if acc.all recIsPaper then acc else []),
   (if acc.all recWellFormed then paperIds acc else []),
   acc)

/-- The `while len(new_papers) < self.max_results:` loop
(src/pyrxiv/fetcher.py lines 90-191) followed by the end-of-call
bookkeeping. -/
def fetchLoop (feed : Nat → Nat → List Entry) (mr bs : Nat) :
    Nat → List String → List Rec → Nat → Option (List Rec × List String × List Rec)
  | fuel, ids, acc, start =>
    if mr ≤ acc.length then some (finalize acc)
    else
      match fuel with
      | 0 => none
      | fuel' + 1 =>
        if (feed start (min bs (mr - acc.length))).isEmpty then some ([], [], acc)
        else
          fetchLoop feed mr bs fuel'
            (processEntries mr (feed start (min bs (mr - acc.length)))
              (feed start (min bs (mr - acc.length))) ids acc).1
            (processEntries mr (feed start (min bs (mr - acc.length)))
              (feed start (min bs (mr - acc.length))) ids acc).2
            (start + bs)

/-- `ArxivFetcher.fetch`: read the ledger once, run the loop from
`start_index = 0` with an empty accumulator.  The ledger file after the
call is `ledger ++ writes` for the single `writes` block returned. -/
def fetch (feed : Nat → Nat → List Entry) (mr bs : Nat) (ledger : List String)
    (fuel : Nat) : Option (List Rec × List String × List Rec) :=
  fetchLoop feed mr bs fuel ledger [] 0

/-! ### Concrete feed entries for evaluating `fetch` -/

/-- A well-formed feed entry. -/
def entryGoodC1 : Entry :=
  { title := some "Interesting strongly correlated physics"
    id := some "http://arxiv.org/abs/1234.5678v1"
    summary := some "An abstract."
    author := .single { name := some "Alice", affiliation := none }
    category := .single { term := some "cond-mat.str-el" }
    comment := some "10 pages, 2 figures"
    updated := some "2025-01-01T00:00:00Z"
    published := some "2025-01-01T00:00:00Z" }

/-- A feed entry with no summary element. -/
def entryNoSummaryC1 : Entry :=
  { title := some "A paper with no abstract"
    id := some "http://arxiv.org/abs/8888.9999v1"
    summary := none
    author := .missing
    category := .missing
    comment := none
    updated := none
    published := none }

/-- A feed whose first page is one good entry followed by one entry with a
missing summary, then end of results. -/
def feedC1 : Nat → Nat → List Entry :=
  fun start _ => if start = 0 then [entryGoodC1, entryNoSummaryC1] else []

/-- Does a returned record avoid every identifier of the given ledger? -/
def noLedgered (ledger : List String) (r : Rec) : Bool :=
  match recId r with
  | some i => !(ledger.contains i)
  | none => true

/-- The set-membership invariant carried through a fetch call: every
ledgered identifier is in the in-memory `fetched_ids` set, every paper
already accumulated has an identifier outside the ledger but inside the
set, and the accumulated paper identifiers are distinct. -/
def FetchInv (ledger ids : List String) (acc : List Rec) : Prop :=
  (∀ x ∈ ledger, x ∈ ids) ∧
  (∀ i ∈ paperIds acc, i ∉ ledger ∧ i ∈ ids) ∧
  (paperIds acc).Nodup

/-- A ledgered entry and a fresh entry, for the C3 witness run. -/
def entryLedgeredC3 : Entry :=
  { title := some "Already fetched paper"
    id := some "http://arxiv.org/abs/1234.5678v1"
    summary := some "An abstract."
    author := .missing
    category := .single { term := some "cond-mat.str-el" }
    comment := none
    updated := none
    published := none }

def entryNewC3 : Entry :=
  { title := some "A new paper"
    id := some "http://arxiv.org/abs/9999.0001v2"
    summary := some "Another abstract."
    author := .single { name := some "Bob", affiliation := some "Uni" }
    category := .list [{ term := some "cond-mat.str-el" }, { term := none }]
    comment := some "5 pages, 1 figures"
    updated := some "2025-02-02T00:00:00Z"
    published := some "2025-02-02T00:00:00Z" }

def feedC3 : Nat → Nat → List Entry :=
  fun start _ => if start = 0 then [entryLedgeredC3, entryNewC3] else []

def ledgerC3 : List String := ["1234.5678v1"]

def paperNewC3 : ArxivPaper :=
  buildPaper entryNewC3 "http://arxiv.org/abs/9999.0001v2" "Another abstract."

def entryGoodC4 : Entry :=
  { title := some "A valid record"
    id := some "http://arxiv.org/abs/2002.0002v1"
    summary := some "Text."
    author := .missing
    category := .missing
    comment := none
    updated := none
    published := none }

def entryNoSummaryC4 : Entry :=
  { title := some "No abstract here"
    id := some "http://arxiv.org/abs/2002.0003v1"
    summary := none
    author := .missing
    category := .missing
    comment := none
    updated := none
    published := none }

def feedC4 : Nat → Nat → List Entry :=
  fun start _ => if start = 0 then [entryGoodC4, entryNoSummaryC4] else []

/-! ## ArxivDownloader.download_pdf (src/pyrxiv/downloader.py) and the
filtering pipeline download_pattern_papers (src/pyrxiv/extractor.py lines
218-291)

The network is a predicate on PDF URLs (does the streamed GET together
with `raise_for_status` succeed); `requests.exceptions.RequestException`
failures take the `except` branch.  The content folder is the list of
existing file paths; a backend is a function from (loader name, path) to
page texts, as for `get_text`. -/

/-- The network and extraction backends seen by the PDF pipeline. -/
structure PdfWorld where
  resp : String → Bool
  extract : String → String → List String

/-- Writing a file: the path exists afterwards. -/
def insertFile (fs : List String) (path : String) : List String :=
  if fs.contains path then fs else path :: fs

/-- `ArxivDownloader.download_pdf`: on transport success the path
`data_folder/<id>.pdf` is returned, and the file is written when `write`
is true; on a `RequestException` the result is `None` and the filesystem
is untouched. -/
def download_pdf (w : PdfWorld) (data_folder : String) (fs : List String)
    (p : ArxivPaper) (write : Bool) : Option String × List String :=
  if w.resp p.pdf_url then
    if write then
      (some (data_folder ++ "/" ++ p.id ++ ".pdf"),
        insertFile fs (data_folder ++ "/" ++ p.id ++ ".pdf"))
    else (some (data_folder ++ "/" ++ p.id ++ ".pdf"), fs)
  else (none, fs)

/-- The `str` payload of a `get_text` result (the branches below only read
it when the result is a nonempty string). -/
def asStr : PyStrOrList → String
  | .str s => s
  | .list _ => ""

/-- The per-record body of the loop in `download_pattern_papers`
(src/pyrxiv/extractor.py lines 269-290): download, extract; empty text
skips the record; a text that does not match the pattern deletes the
downloaded file (`pdf_path.unlink()`) and skips the record; otherwise the
references are deleted, the text cleaned and attached, and both the path
and the record are kept.  The state is (content folder, files,
all_papers). -/
def pipeStep (w : PdfWorld) (df loader : String) (pat : String → Bool)
    (st : List String × List String × List ArxivPaper) (p : ArxivPaper) :
    List String × List String × List ArxivPaper :=
  let dl := download_pdf w df st.1 p true
  let text := get_text dl.2 w.extract dl.1 loader
  if pyFalsy text then (dl.2, st.2.1, st.2.2)
  else if !(pat (asStr text)) then ((dl.2).erase ((dl.1).getD ""), st.2.1, st.2.2)
  else
    (dl.2, st.2.1 ++ [(dl.1).getD ""],
      st.2.2 ++ [{ p with text := clean_text (delete_references (asStr text)) }])

/-- The `for paper in papers:` loop of `download_pattern_papers`. -/
def innerLoop (w : PdfWorld) (df loader : String) (pat : String → Bool)
    (papers : List ArxivPaper)
    (st : List String × List String × List ArxivPaper) :
    List String × List String × List ArxivPaper :=
  papers.foldl (pipeStep w df loader pat) st

/-- The papers of a fetch result (the returned list is all papers, see
`fetch_never_returns_ledgered_ids`; raw entries never reach the caller). -/
def asPapers (l : List Rec) : List ArxivPaper :=
  l.filterMap (fun r => match r with | .paper p => some p | .raw _ => none)

/-- `download_pattern_papers` outer loop over `n_fetch_batches` fetch
calls, threading the ledger file and the content folder. -/
def dppGo (w : PdfWorld) (feed : Nat → Nat → List Entry) (mr bs fuel : Nat)
    (df loader : String) (pat : String → Bool) :
    Nat → List String → (List String × List String × List ArxivPaper) →
      Option (List String × List String × List ArxivPaper)
  | 0, _, st => some st
  | n + 1, ledger, st =>
    match fetch feed mr bs ledger fuel with
    | none => none
    | some (res, writes, _) =>
      dppGo w feed mr bs fuel df loader pat n (ledger ++ writes)
        (innerLoop w df loader pat (asPapers res) st)

/-- `download_pattern_papers` (src/pyrxiv/extractor.py lines 218-291):
returns the kept file paths and the kept records. -/
def download_pattern_papers (w : PdfWorld) (feed : Nat → Nat → List Entry)
    (mr bs fuel : Nat) (df loader : String) (pat : String → Bool)
    (nb : Nat) (ledger fs : List String) :
    Option (List String × List ArxivPaper) :=
  (dppGo w feed mr bs fuel df loader pat nb ledger (fs, [], [])).map
    (fun st => (st.2.1, st.2.2))

/-- The path `download_pdf` stores a record under. -/
def pipePath (df : String) (p : ArxivPaper) : String :=
  df ++ "/" ++ p.id ++ ".pdf"

/-- Declarative per-record outcome of the filtering pipeline, written from
the spec: a record is kept exactly when its download succeeds, the loader
exists, the extracted text is nonempty and matches the pattern; the kept
record carries its path and its cleaned text. -/
def keptRecord (w : PdfWorld) (df loader : String) (pat : String → Bool)
    (p : ArxivPaper) : Option (String × ArxivPaper) :=
  if w.resp p.pdf_url then
    if availableLoaders.contains loader then
      if joinPages (w.extract loader (pipePath df p)) = "" then none
      else if pat (joinPages (w.extract loader (pipePath df p))) then
        some (pipePath df p,
          { p with text := clean_text (delete_references
              (joinPages (w.extract loader (pipePath df p)))) })
      else none
    else none
  else none

def keptPath (w : PdfWorld) (df loader : String) (pat : String → Bool)
    (p : ArxivPaper) : Option String :=
  (keptRecord w df loader pat p).map Prod.fst

def keptPaper (w : PdfWorld) (df loader : String) (pat : String → Bool)
    (p : ArxivPaper) : Option ArxivPaper :=
  (keptRecord w df loader pat p).map Prod.snd

/-- Declarative per-record effect on the content folder, written from the
spec: a failed download leaves the folder alone; a successful download
writes the file; the file is deleted again exactly when the extracted text
is nonempty and does not match the pattern. -/
def fsStep (w : PdfWorld) (df loader : String) (pat : String → Bool)
    (fs : List String) (p : ArxivPaper) : List String :=
  if w.resp p.pdf_url then
    if availableLoaders.contains loader &&
        !(joinPages (w.extract loader (pipePath df p)) = "") &&
        !(pat (joinPages (w.extract loader (pipePath df p)))) then
      (insertFile fs (pipePath df p)).erase (pipePath df p)
    else insertFile fs (pipePath df p)
  else fs

/-- A network where every request succeeds, and one where none does. -/
def worldOkC10 : PdfWorld :=
  { resp := fun _ => true, extract := fun _ _ => ["text"] }

def worldFailC10 : PdfWorld :=
  { resp := fun _ => false, extract := fun _ _ => ["text"] }

def paperC10 : ArxivPaper :=
  { id := "1111.2222v1"
    url := "http://arxiv.org/abs/1111.2222v1"
    pdf_url := "http://arxiv.org/pdf/1111.2222v1"
    title := some "A title"
    summary := "A summary"
    authors := []
    comment := ""
    categories := [some "cond-mat.str-el"] }

/-! ## Theorems -/

/-- Claim C8: hyphen-broken words across a line wrap are joined, and runs of
newlines collapse first to one blank line and finally to a single space. -/
theorem clean_text_examples :
    clean_text "super-\nconductivity" = "superconductivity" ∧
    clean_text "a\n\n\n\nb" = "a b" := by
  constructor <;> rfl

theorem nlToSpaceGo_not_newline (fuel : Nat) : ∀ cs : List Char, '\n' ∉ nlToSpaceGo fuel cs := by
  induction fuel with
  | zero => intro cs; simp [nlToSpaceGo]
  | succ f ih =>
    intro cs
    cases cs with
    | nil => simp [nlToSpaceGo]
    | cons c rest =>
      simp only [nlToSpaceGo]
      split
      · intro hmem
        rcases List.mem_cons.mp hmem with h | h
        · exact absurd h (by decide)
        · exact ih _ h
      · rename_i hc
        intro hmem
        rcases List.mem_cons.mp hmem with h | h
        · exact hc h.symm
        · exact ih _ h

theorem mem_pyStripRight {x : Char} : ∀ l : List Char, x ∈ pyStripRight l → x ∈ l := by
  intro l
  induction l with
  | nil => simp [pyStripRight]
  | cons c rest ih =>
    simp only [pyStripRight]
    split
    · intro h; exact absurd h (by simp)
    · intro h
      rcases List.mem_cons.mp h with h | h
      · exact List.mem_cons.mpr (Or.inl h)
      · exact List.mem_cons.mpr (Or.inr (ih h))

theorem pyStripRight_getLast :
    ∀ l : List Char, ((pyStripRight l).getLast?.all fun c => !(pyIsSpace c)) = true := by
  intro l
  induction l with
  | nil => simp [pyStripRight]
  | cons c rest ih =>
    simp only [pyStripRight]
    split
    · simp
    · rename_i hcond
      cases hr : pyStripRight rest with
      | nil =>
        rw [hr] at hcond
        simp only [List.isEmpty_nil, Bool.true_and] at hcond
        have hc : pyIsSpace c = false := by
          cases h : pyIsSpace c
          · rfl
          · exact absurd h hcond
        simp [hc]
      | cons y ys =>
        rw [List.getLast?_cons_cons]
        rw [hr] at ih
        exact ih

theorem pyStripRight_head :
    ∀ l : List Char, pyStripRight l = [] ∨ (pyStripRight l).head? = l.head? := by
  intro l
  cases l with
  | nil => exact Or.inl rfl
  | cons c rest =>
    simp only [pyStripRight]
    split
    · exact Or.inl rfl
    · exact Or.inr rfl

/-- Claim C9: the output of `clean_text` contains no newline character and
has no leading or trailing whitespace. -/
theorem clean_text_no_newline_trimmed (s : String) :
    ((clean_text s).data.contains '\n') = false ∧
    ((clean_text s).data.head?.all fun c => !(pyIsSpace c)) = true ∧
    ((clean_text s).data.getLast?.all fun c => !(pyIsSpace c)) = true := by
  unfold clean_text
  split
  · exact ⟨by decide, by decide, by decide⟩
  · refine ⟨?_, ?_, ?_⟩
    · have hmem : '\n' ∉ (pyStrip (nlToSpace (removeIndent (collapseSpaces
          (stripArxiv (collapseNL (fixHyphens s.data))))))) := by
        intro hmem
        have h1 := mem_pyStripRight _ hmem
        have h2 := (List.dropWhile_sublist pyIsSpace).subset h1
        exact nlToSpaceGo_not_newline _ _ h2
      simpa using hmem
    · rcases pyStripRight_head ((nlToSpace (removeIndent (collapseSpaces
        (stripArxiv (collapseNL (fixHyphens s.data)))))).dropWhile pyIsSpace) with h | h
      · show ((pyStrip _).head?.all fun c => !(pyIsSpace c)) = true
        unfold pyStrip
        rw [h]
        rfl
      · show ((pyStrip _).head?.all fun c => !(pyIsSpace c)) = true
        unfold pyStrip
        rw [h]
        cases hh : ((nlToSpace (removeIndent (collapseSpaces
            (stripArxiv (collapseNL (fixHyphens s.data)))))).dropWhile pyIsSpace).head? with
        | none => rfl
        | some x =>
          have hlem := List.head?_dropWhile_not pyIsSpace (nlToSpace (removeIndent
            (collapseSpaces (stripArxiv (collapseNL (fixHyphens s.data))))))
          rw [hh] at hlem
          simp [hlem]
    · exact pyStripRight_getLast _

theorem reSearch_eq_firstIdx (p : List Char → Bool) :
    ∀ cs : List Char, reSearch p cs = firstIdx p cs := by
  intro cs
  induction cs with
  | nil =>
    show reSearch p [] = firstIdx p []
    unfold reSearch firstIdx
    simp only [List.length_nil, Nat.zero_add]
    rw [show List.range 1 = [0] from rfl, List.find?_cons]
    cases h : p [] with
    | true => simp [h, List.drop_nil]
    | false => simp [h, List.drop_nil]
  | cons c rest ih =>
    simp only [reSearch, firstIdx, List.length_cons]
    rw [List.range_succ_eq_map]
    rw [List.find?_cons]
    cases h : p ((c :: rest).drop 0) with
    | true =>
      simp only [List.drop_zero] at h
      simp [h]
    | false =>
      simp only [List.drop_zero] at h
      simp only [h, Bool.false_eq_true, if_neg]
      rw [List.find?_map]
      have hcomp : ((fun i => p ((c :: rest).drop i)) ∘ Nat.succ) =
          fun i => p (rest.drop i) := by
        funext i
        simp [List.drop_succ_cons, Function.comp]
      rw [hcomp]
      rw [ih]
      rfl

/-- Claim C2 counterexample: on a text whose supplemental-material heading
precedes its references heading, the code does not behave as the claimed
case analysis (which would truncate at the references heading); instead it
splices from the earlier heading, duplicating the span in between. -/
theorem delete_references_not_spec :
    delete_references "A\nSupplemental Material\nB\nReferences\nC" ≠
      delete_references_spec "A\nSupplemental Material\nB\nReferences\nC" := by
  decide

/-- Claim C2 (amended): `delete_references` finds the first start heading
position; if found it takes the first end-heading position anywhere in the
text; if both are found it returns prefix-up-to-start joined with
suffix-from-end; if only the start is found it truncates there; otherwise
it returns the input unchanged (with first occurrence meaning the least
matching index). -/
theorem delete_references_cases (s : String) :
    delete_references s = delete_references_amended s := by
  unfold delete_references delete_references_amended
  rw [reSearch_eq_firstIdx, reSearch_eq_firstIdx]

/-- Claim C5: on a non-existing path, and on an unknown loader name, the
code returns the empty Python LIST (falsy, but not a `str`), contradicting
the declared `-> str` return type; the claimed empty string is never
produced on these branches. -/
theorem get_text_failure_returns_empty_list :
    get_text [] extractC5 (some "missing.pdf") "pdfminer" = PyStrOrList.list [] ∧
    get_text ["a.pdf"] extractC5 (some "a.pdf") "badloader" = PyStrOrList.list [] ∧
    isPyStr (get_text [] extractC5 (some "missing.pdf") "pdfminer") = false ∧
    isPyStr (get_text ["a.pdf"] extractC5 (some "a.pdf") "badloader") = false :=
  ⟨rfl, rfl, rfl, rfl⟩

/-- Claim C1 (evaluation at the failing input): on a page holding one valid
entry followed by one entry with a missing summary, the accepted paper is
first accumulated (first conjunct), but the rejection branch
`new_papers = papers` then replaces the whole batch with the raw page
entries, so the call returns the empty list and writes nothing (second
conjunct), instead of keeping the accepted record and skipping only the
offending entry. -/
theorem fetch_missing_summary_resets_batch :
    processEntries 2 [entryGoodC1] [entryGoodC1] [] [] =
      (["1234.5678v1"],
        [Rec.paper (buildPaper entryGoodC1 "http://arxiv.org/abs/1234.5678v1" "An abstract.")]) ∧
    fetch feedC1 2 2 [] 2 =
      some ([], [], [Rec.raw entryGoodC1, Rec.raw entryNoSummaryC1]) :=
  ⟨rfl, rfl⟩

theorem paperIds_map_raw (page : List Entry) : paperIds (page.map Rec.raw) = [] := by
  induction page with
  | nil => rfl
  | cons e rest ih =>
    show paperIds (Rec.raw e :: rest.map Rec.raw) = []
    rw [paperIds, List.filterMap_cons_none (by rfl)]
    exact ih

theorem paperIds_append (l1 l2 : List Rec) :
    paperIds (l1 ++ l2) = paperIds l1 ++ paperIds l2 :=
  List.filterMap_append l1 l2 recId

theorem buildPaper_id (e : Entry) (u s : String) :
    (buildPaper e u s).id = arxivIdOf u := rfl

theorem contains_false_iff {l : List String} {a : String} :
    l.contains a = false ↔ a ∉ l := by
  rw [List.contains, List.elem_eq_mem]
  simp

theorem processEntries_inv {ledger : List String} (mr : Nat) (page : List Entry) :
    ∀ es ids acc, FetchInv ledger ids acc →
      FetchInv ledger (processEntries mr page es ids acc).1
        (processEntries mr page es ids acc).2 := by
  intro es
  induction es with
  | nil => intro ids acc h; exact h
  | cons e rest ih =>
    intro ids acc h
    have hraw : FetchInv ledger ids (page.map Rec.raw) :=
      ⟨h.1, by simp [paperIds_map_raw], by simp [paperIds_map_raw]⟩
    simp only [processEntries]
    split
    · exact ih ids _ hraw
    · split
      · exact ih ids _ hraw
      · rename_i url_id heq
        split
        · exact ih ids _ hraw
        · split
          · exact ih ids _ hraw
          · rename_i summary heq2
            split
            · exact ih ids _ hraw
            · split
              · exact ih ids acc h
              · rename_i hnotfetched
                have haid : arxivIdOf url_id ∉ ids := by
                  rw [← contains_false_iff]
                  cases hc : ids.contains (arxivIdOf url_id)
                  · rfl
                  · exact absurd hc hnotfetched
                have hnew : FetchInv ledger (arxivIdOf url_id :: ids)
                    (acc ++ [Rec.paper (buildPaper e url_id summary)]) := by
                  refine ⟨?_, ?_, ?_⟩
                  · intro x hx
                    exact List.mem_cons.mpr (Or.inr (h.1 x hx))
                  · intro i hi
                    rw [paperIds_append] at hi
                    rcases List.mem_append.mp hi with hi | hi
                    · exact ⟨(h.2.1 i hi).1,
                        List.mem_cons.mpr (Or.inr (h.2.1 i hi).2)⟩
                    · have : i = arxivIdOf url_id := by
                        simpa [paperIds, recId, buildPaper_id] using hi
                      subst this
                      refine ⟨fun hmem => haid (h.1 _ hmem), List.mem_cons.mpr (Or.inl rfl)⟩
                  · rw [paperIds_append]
                    refine List.Nodup.append h.2.2 ?_ ?_
                    · simp [paperIds, recId]
                    · intro i hi hi2
                      have : i = arxivIdOf url_id := by
                        simpa [paperIds, recId, buildPaper_id] using hi2
                      subst this
                      exact haid (h.2.1 _ hi).2
                split
                · exact hnew
                · exact ih _ _ hnew

theorem fetchLoop_inv {ledger : List String} (feed : Nat → Nat → List Entry)
    (mr bs : Nat) :
    ∀ fuel ids acc start res writes accF, FetchInv ledger ids acc →
      fetchLoop feed mr bs fuel ids acc start = some (res, writes, accF) →
      (∀ i ∈ paperIds res, i ∉ ledger) ∧ (paperIds res).Nodup := by
  intro fuel
  induction fuel with
  | zero =>
    intro ids acc start res writes accF hinv h
    rw [fetchLoop] at h
    split at h
    · rw [Option.some_inj] at h
      have hres : res = if acc.all recIsPaper then acc else [] := by
        have := congrArg Prod.fst h
        simpa [finalize] using this.symm
      subst hres
      split
      · exact ⟨fun i hi => (hinv.2.1 i hi).1, hinv.2.2⟩
      · simp [paperIds]
    · exact absurd h (by simp)
  | succ fuel' ih =>
    intro ids acc start res writes accF hinv h
    rw [fetchLoop] at h
    split at h
    · rw [Option.some_inj] at h
      have hres : res = if acc.all recIsPaper then acc else [] := by
        have := congrArg Prod.fst h
        simpa [finalize] using this.symm
      subst hres
      split
      · exact ⟨fun i hi => (hinv.2.1 i hi).1, hinv.2.2⟩
      · simp [paperIds]
    · split at h
      · rw [Option.some_inj] at h
        have hres : res = [] := (congrArg Prod.fst h).symm
        subst hres
        simp [paperIds]
      · exact ih _ _ _ res writes accF
          (processEntries_inv mr _ _ ids acc hinv) h

/-- Claim C3: no record returned by a fetch call carries an identifier that
was in the persisted ledger when the call started, and the returned
identifiers are pairwise distinct (identifiers accepted earlier in the same
call are skipped too). -/
theorem fetch_never_returns_ledgered_ids (feed : Nat → Nat → List Entry)
    (mr bs : Nat) (ledger : List String) (fuel : Nat)
    (res : List Rec) (writes : List String) (accF : List Rec)
    (h : fetch feed mr bs ledger fuel = some (res, writes, accF)) :
    (res.all (noLedgered ledger)) = true ∧ (paperIds res).Nodup := by
  have hinv : FetchInv ledger ledger [] :=
    ⟨fun x hx => hx, by simp [paperIds], by simp [paperIds]⟩
  have hmain := fetchLoop_inv feed mr bs fuel ledger [] 0 res writes accF hinv h
  refine ⟨?_, hmain.2⟩
  rw [List.all_eq_true]
  intro r hr
  unfold noLedgered
  cases hid : recId r with
  | none => rfl
  | some i =>
    have hi : i ∈ paperIds res := List.mem_filterMap.mpr ⟨r, hr, hid⟩
    have := hmain.1 i hi
    simpa using this

theorem fetch_never_returns_ledgered_ids_witness :
    ([Rec.paper paperNewC3].all (noLedgered ledgerC3)) = true ∧
      (paperIds [Rec.paper paperNewC3]).Nodup :=
  fetch_never_returns_ledgered_ids feedC3 1 2 ledgerC3 1
    [Rec.paper paperNewC3] ["9999.0001v2"] [Rec.paper paperNewC3] rfl

theorem recWellFormed_of_isPaper {r : Rec} (h : recIsPaper r = true) :
    recWellFormed r = true := by
  cases r with
  | paper p => simp [recWellFormed, recIsPaper, recId]
  | raw e => exact absurd h (by simp [recIsPaper])

theorem fetchLoop_result_shape (feed : Nat → Nat → List Entry) (mr bs : Nat) :
    ∀ fuel ids acc start res writes accF,
      fetchLoop feed mr bs fuel ids acc start = some (res, writes, accF) →
      (res = [] ∧ writes = []) ∨ (res, writes, accF) = finalize accF := by
  intro fuel
  induction fuel with
  | zero =>
    intro ids acc start res writes accF h
    rw [fetchLoop] at h
    split at h
    · rw [Option.some_inj] at h
      right
      have haccF : accF = acc := by
        have := congrArg (fun t => t.2.2) h
        simpa [finalize] using this.symm
      rw [← h, haccF]
    · exact absurd h (by simp)
  | succ fuel' ih =>
    intro ids acc start res writes accF h
    rw [fetchLoop] at h
    split at h
    · rw [Option.some_inj] at h
      right
      have haccF : accF = acc := by
        have := congrArg (fun t => t.2.2) h
        simpa [finalize] using this.symm
      rw [← h, haccF]
    · split at h
      · rw [Option.some_inj] at h
        left
        exact ⟨(congrArg Prod.fst h).symm,
          (congrArg (fun t => t.2.1) h).symm⟩
      · exact ih _ _ _ res writes accF h

/-- Claim C4: the ledger receives at most a single appended block per call
(the `writes` component), that block is nonempty only when every
accumulated element is an `ArxivPaper` with a non-null identifier, and when
some accumulated element is not such a record the call writes nothing and
returns the empty list. -/
theorem fetch_ledger_fail_closed (feed : Nat → Nat → List Entry)
    (mr bs : Nat) (ledger : List String) (fuel : Nat)
    (res : List Rec) (writes : List String) (accF : List Rec)
    (h : fetch feed mr bs ledger fuel = some (res, writes, accF)) :
    (writes.isEmpty || accF.all recWellFormed) = true ∧
    (accF.all recWellFormed || (writes.isEmpty && res.isEmpty)) = true := by
  rcases fetchLoop_result_shape feed mr bs fuel ledger [] 0 res writes accF h with
    ⟨hres, hw⟩ | hfin
  · subst hres; subst hw; simp
  · have hres : res = if accF.all recIsPaper then accF else [] := by
      have := congrArg Prod.fst hfin
      simpa [finalize] using this
    have hw : writes = if accF.all recWellFormed then paperIds accF else [] := by
      have := congrArg (fun t => t.2.1) hfin
      simpa [finalize] using this
    cases hwf : accF.all recWellFormed with
    | true => subst hres; subst hw; simp [hwf]
    | false =>
      have hip : accF.all recIsPaper = false := by
        cases hip : accF.all recIsPaper with
        | false => rfl
        | true =>
          rw [List.all_eq_true] at hip
          have : accF.all recWellFormed = true := by
            rw [List.all_eq_true]
            intro r hr
            exact recWellFormed_of_isPaper (hip r hr)
          rw [hwf] at this
          exact absurd this (by simp)
      subst hres; subst hw
      simp [hwf, hip]

theorem fetch_ledger_fail_closed_witness :
    ((([] : List String)).isEmpty ||
        ([Rec.raw entryGoodC4, Rec.raw entryNoSummaryC4].all recWellFormed)) = true ∧
    (([Rec.raw entryGoodC4, Rec.raw entryNoSummaryC4].all recWellFormed) ||
        ((([] : List String)).isEmpty && (([] : List Rec)).isEmpty)) = true :=
  fetch_ledger_fail_closed feedC4 2 2 [] 2 [] []
    [Rec.raw entryGoodC4, Rec.raw entryNoSummaryC4] rfl

/-- Claim C6: whenever an iteration of the fetch loop requests a page and
the feed answers with zero entries, the call returns the empty list at
once, discarding the accumulator, and the writes block is empty (no ledger
mutation). -/
theorem fetch_empty_page_returns_nothing (feed : Nat → Nat → List Entry)
    (mr bs fuel : Nat) (ids : List String) (acc : List Rec) (start : Nat)
    (hlt : acc.length < mr)
    (hpage : feed start (min bs (mr - acc.length)) = []) :
    fetchLoop feed mr bs (fuel + 1) ids acc start = some ([], [], acc) := by
  rw [fetchLoop]
  rw [if_neg (Nat.not_le.mpr hlt)]
  simp [hpage]

theorem fetch_empty_page_returns_nothing_witness :
    fetchLoop (fun _ _ => ([] : List Entry)) 1 1 1 [] [] 0 = some ([], [], []) :=
  fetch_empty_page_returns_nothing (fun _ _ => ([] : List Entry)) 1 1 0 [] [] 0
    (by decide) rfl

theorem insertFile_contains (fs : List String) (path : String) :
    (insertFile fs path).contains path = true := by
  unfold insertFile
  split
  · assumption
  · simp

theorem pipePath_ne_empty (df : String) (p : ArxivPaper) :
    (pipePath df p = "") = False := by
  simp only [pipePath, eq_iff_iff, iff_false]
  intro h
  have : (df ++ "/" ++ p.id ++ ".pdf").data = ("" : String).data := by rw [h]
  simp [String.data_append] at this

theorem pipePath_endsWith (df : String) (p : ArxivPaper) :
    strEndsWith (pipePath df p) ".pdf" = true := by
  unfold strEndsWith pipePath
  rw [List.isSuffixOf_iff_suffix]
  rw [String.data_append]
  exact List.suffix_append _ _

theorem get_text_at_inserted (w : PdfWorld) (df loader : String)
    (fs : List String) (p : ArxivPaper) :
    get_text (insertFile fs (pipePath df p)) w.extract (some (pipePath df p)) loader =
      (if !(availableLoaders.contains loader) then PyStrOrList.list []
       else PyStrOrList.str (joinPages (w.extract loader (pipePath df p)))) := by
  unfold get_text check_pdf_path pyStr
  simp only [pipePath_ne_empty, if_false]
  rw [insertFile_contains, pipePath_endsWith]
  simp

theorem pipeStep_eq (w : PdfWorld) (df loader : String) (pat : String → Bool)
    (fs files : List String) (aps : List ArxivPaper) (p : ArxivPaper) :
    pipeStep w df loader pat (fs, files, aps) p =
      (fsStep w df loader pat fs p,
       files ++ (keptPath w df loader pat p).toList,
       aps ++ (keptPaper w df loader pat p).toList) := by
  unfold pipeStep download_pdf fsStep keptPath keptPaper keptRecord
  cases hresp : w.resp p.pdf_url with
  | false =>
    simp only [if_neg (by simp [hresp] : ¬(w.resp p.pdf_url = true))]
    have htext : get_text fs w.extract none loader = PyStrOrList.list [] := by
      unfold get_text check_pdf_path pyStr
      have : strEndsWith "None" ".pdf" = false := rfl
      simp [this]
    simp [htext, pyFalsy]
  | true =>
    simp only [if_pos hresp, if_pos rfl]
    show (let dl : Option String × List String :=
        (some (pipePath df p), insertFile fs (pipePath df p));
      let text := get_text dl.2 w.extract dl.1 loader;
      if pyFalsy text then (dl.2, files, aps)
      else if !(pat (asStr text)) then ((dl.2).erase ((dl.1).getD ""), files, aps)
      else (dl.2, files ++ [(dl.1).getD ""],
        aps ++ [{ p with text := clean_text (delete_references (asStr text)) }])) = _
    simp only
    rw [get_text_at_inserted]
    cases hload : availableLoaders.contains loader with
    | false =>
      simp [pyFalsy, hload]
    | true =>
      by_cases hraw : joinPages (w.extract loader (pipePath df p)) = ""
      · simp [pyFalsy, hraw]
      · by_cases hpat : pat (joinPages (w.extract loader (pipePath df p))) = true
        · simp [pyFalsy, hraw, hpat, asStr]
        · have hpat' : pat (joinPages (w.extract loader (pipePath df p))) = false := by
            cases h : pat (joinPages (w.extract loader (pipePath df p)))
            · rfl
            · exact absurd h hpat
          simp [pyFalsy, hraw, hpat', asStr]

/-- Claim C7: the filtering loop of `download_pattern_papers` is exactly
the declarative per-record filter: the returned file list and record list
extend the incoming ones by precisely the records whose download succeeded
and whose nonempty extracted text matches the pattern (with references
deleted and text cleaned on the kept records), while a nonempty
non-matching text deletes the downloaded file from the content folder and
contributes to neither list, and an empty extraction skips the record
without deleting its file. -/
theorem download_pattern_papers_filter (w : PdfWorld) (df loader : String)
    (pat : String → Bool) :
    ∀ (papers : List ArxivPaper) (fs files : List String) (aps : List ArxivPaper),
      innerLoop w df loader pat papers (fs, files, aps) =
        (papers.foldl (fsStep w df loader pat) fs,
         files ++ papers.filterMap (keptPath w df loader pat),
         aps ++ papers.filterMap (keptPaper w df loader pat)) := by
  intro papers
  induction papers with
  | nil => intro fs files aps; simp [innerLoop]
  | cons p rest ih =>
    intro fs files aps
    show innerLoop w df loader pat rest (pipeStep w df loader pat (fs, files, aps) p) =
      _
    rw [pipeStep_eq]
    rw [ih]
    refine congrArg _ ?_
    cases hk : keptRecord w df loader pat p with
    | none =>
      simp [keptPath, keptPaper, hk, List.filterMap_cons_none,
        List.foldl_cons]
    | some pr =>
      have h1 : keptPath w df loader pat p = some pr.1 := by simp [keptPath, hk]
      have h2 : keptPaper w df loader pat p = some pr.2 := by simp [keptPaper, hk]
      simp [h1, h2, List.filterMap_cons_some]

/-- Claim C10: with `write=False` the content folder is never touched; on
a successful response the returned path is `data_folder/<id>.pdf`; on a
transport failure the result is `None` for any write mode, again leaving
the filesystem unchanged. -/
theorem download_pdf_frame (w : PdfWorld) (df : String) (fs : List String)
    (p : ArxivPaper) :
    ((download_pdf w df fs p false).2 = fs) ∧
    (w.resp p.pdf_url = true →
      download_pdf w df fs p false = (some (df ++ "/" ++ p.id ++ ".pdf"), fs)) ∧
    (w.resp p.pdf_url = false →
      ∀ wr : Bool, download_pdf w df fs p wr = (none, fs)) := by
  refine ⟨?_, ?_, ?_⟩
  · unfold download_pdf
    cases h : w.resp p.pdf_url <;> simp [h]
  · intro h
    unfold download_pdf
    simp [h]
  · intro h wr
    unfold download_pdf
    simp [h]

theorem download_pdf_frame_witness :
    download_pdf worldOkC10 "data" ["existing.pdf"] paperC10 false =
      (some "data/1111.2222v1.pdf", ["existing.pdf"]) ∧
    download_pdf worldFailC10 "data" ["existing.pdf"] paperC10 true =
      (none, ["existing.pdf"]) :=
  ⟨(download_pdf_frame worldOkC10 "data" ["existing.pdf"] paperC10).2.1 rfl,
   (download_pdf_frame worldFailC10 "data" ["existing.pdf"] paperC10).2.2 rfl true⟩

end Pyrxiv
